import Mathlib

/-!
Verification development for `display_qceff_table.py`, a tool that reads a
QCEFF configuration table from CSV and pretty-prints a summary table plus
optional per-quantity detail blocks.

The Python source is shallowly embedded below.  Strings are modelled as Lean
`String`s (lists of characters); the Python string methods used by the source
(`strip`, `upper`, `lower`, `replace`, `len`, slicing) are given explicit,
executable definitions.  Printing is modelled by accumulating the payload of
each `print` call into a list of strings, and an uncaught `IndexError` is
modelled by stopping the accumulation and reporting failure, exactly where the
source would raise.
-/

/-- The whitespace characters stripped by Python `str.strip()`. -/
def pyIsSpace (c : Char) : Bool :=
  c = ' ' || c = '\t' || c = '\n' || c = '\r' || c = '\x0b' || c = '\x0c'

/-- Python `s.strip()` on the underlying character list. -/
def pyStripList (s : List Char) : List Char :=
  ((s.dropWhile pyIsSpace).reverse.dropWhile pyIsSpace).reverse

/-- Python `s.strip()`. -/
def pyStrip (s : String) : String := ⟨pyStripList s.data⟩

/-- Python `s.upper()` (the source only ever feeds it ASCII). -/
def pyUpper (s : String) : String := ⟨s.data.map Char.toUpper⟩

/-- Python `s.lower()` (the source only ever feeds it ASCII). -/
def pyLower (s : String) : String := ⟨s.data.map Char.toLower⟩

/-- Python `len(s)`, the number of code points. -/
def pyLen (s : String) : Nat := s.data.length

/-- Python `s[:n]`. -/
def pySlice (s : String) (n : Nat) : String := ⟨s.data.take n⟩

/-- Python `str.replace` scans left to right and replaces every non-overlapping
occurrence of `pat`.  The fuel argument only serves structural recursion; any
fuel of at least `s.length` gives the replace-all semantics for nonempty
`pat`. -/
def replaceAllFuel (pat rep : List Char) : Nat → List Char → List Char
  | _, [] => []
  | 0, s => s
  | n + 1, c :: cs =>
    if pat ≠ [] ∧ (c :: cs).take pat.length = pat then
      rep ++ replaceAllFuel pat rep n ((c :: cs).drop pat.length)
    else
      c :: replaceAllFuel pat rep n cs

/-- Python `s.replace(pat, rep)` for the nonempty patterns used by the
source. -/
def pyReplace (s pat rep : String) : String :=
  ⟨replaceAllFuel pat.data rep.data s.data.length s.data⟩

/-- `pat` occurs nowhere in `s` (as a contiguous sublist). -/
def noOccur (pat s : List Char) : Prop :=
  ∀ i, i < s.length → (s.drop i).take pat.length ≠ pat

instance (pat s : List Char) : Decidable (noOccur pat s) := by
  unfold noOccur; exact Nat.decidableBallLT _ _

/-- Python `f"{s:<w}"`: left-align `s` in a field of minimum width `w`. -/
def padLeftAlign (s : String) (w : Nat) : String :=
  s ++ ⟨List.replicate (w - pyLen s) ' '⟩

/-- `'='*80`. -/
def bar80 : String := ⟨List.replicate 80 '='⟩

/-- `'='*144`. -/
def bar144 : String := ⟨List.replicate 144 '='⟩

/-- `'-'*30`. -/
def dash30 : String := ⟨List.replicate 30 '-'⟩

/-- `'-'*20`. -/
def dash20 : String := ⟨List.replicate 20 '-'⟩

/-- Line 112 of the source: shorten `BOUNDED_NORMAL_RH_DISTRIBUTION`. -/
def bnrhSubst (dist : String) : String :=
  pyReplace dist "BOUNDED_NORMAL_RH_DISTRIBUTION" "BNRH_DISTRIBUTION"

/-- Line 114 (and line 163) of the source:
`s[:18] + '..' if len(s) > 20 else s`. -/
def truncLabel (s : String) : String :=
  if 20 < pyLen s then pySlice s 18 ++ ".." else s

/-- Lines 119-122 of the source: the opening bracket of the bound
expression. -/
def left_bracket (bounded_below : String) : String :=
  if pyUpper (pyStrip bounded_below) = "TRUE" ∨ pyStrip bounded_below = ".true."
  then "[" else "("

/-- Lines 123-126 of the source: the closing bracket of the bound
expression. -/
def right_bracket (bounded_above : String) : String :=
  if pyUpper (pyStrip bounded_above) = "TRUE" ∨ pyStrip bounded_above = ".true."
  then "]" else ")"

/-- Lines 128-131 of the source: the rendered lower bound. -/
def render_lower (lower : String) : String :=
  let lower_str := pyStrip lower
  if lower_str = "" ∨ pyLower lower_str = "none" ∨ lower_str = "-888888"
  then "-inf" else lower_str

/-- Lines 129-133 of the source: the rendered upper bound.  Note the sentinel
test is the literal `-888888`, the same literal as for the lower bound. -/
def render_upper (upper : String) : String :=
  let upper_str := pyStrip upper
  if upper_str = "" ∨ pyLower upper_str = "none" ∨ upper_str = "-888888"
  then "inf" else upper_str

/-- Lines 110-134 of the source: `format_dist`. -/
def format_dist (dist bounded_below bounded_above lower upper : String) : String :=
  if pyUpper (pyStrip (bnrhSubst dist)) = "NORMAL_DISTRIBUTION" then
    truncLabel (bnrhSubst dist)
  else
    truncLabel (bnrhSubst dist) ++ " " ++ left_bracket bounded_below
      ++ render_lower lower ++ "," ++ render_upper upper
      ++ right_bracket bounded_above

/-- Line 137 of the source: `row[0].replace('QTY_', '')`. -/
def summary_qty_name (name : String) : String := pyReplace name "QTY_" ""

/-- Lines 162-163 of the source: the obs_inc_info column,
`row[20] if len(row) > 20 else 'N/A'`, then truncated. -/
def obs_inc_rendered (row : List String) : String :=
  truncLabel (List.getD row 20 "N/A")

/-- Lines 136-165 of the source: one line of the summary table.  `none` models
the `IndexError` raised by `row[0]` on a zero-field row; every other field
access is guarded by a length test in the source and defaults to `'N/A'` or
`''`. -/
def summary_line : List String → Option String
  | [] => none
  | name :: rest =>
    let row := name :: rest
    some (padLeftAlign (summary_qty_name name) 30 ++ " "
      ++ padLeftAlign (format_dist (List.getD row 5 "N/A") (List.getD row 6 "")
            (List.getD row 7 "") (List.getD row 8 "") (List.getD row 9 "")) 30 ++ " "
      ++ padLeftAlign (format_dist (List.getD row 10 "N/A") (List.getD row 11 "")
            (List.getD row 12 "") (List.getD row 13 "") (List.getD row 14 "")) 30 ++ " "
      ++ padLeftAlign (format_dist (List.getD row 15 "N/A") (List.getD row 16 "")
            (List.getD row 17 "") (List.getD row 18 "") (List.getD row 19 "")) 30 ++ " "
      ++ padLeftAlign (obs_inc_rendered row) 20)

/-- The data-row loop of `display_summary_table`: emit one line per row, or
stop with failure at the first row whose `row[0]` raises. -/
def summaryRows : List (List String) → List String × Bool
  | [] => ([], true)
  | row :: rest =>
    match summary_line row with
    | none => ([], false)
    | some line =>
      let r := summaryRows rest
      (line :: r.1, r.2)

/-- Line 107 of the source: the summary-table column headers. -/
def headerLine : String :=
  padLeftAlign "QUANTITY" 30 ++ " " ++ padLeftAlign "PROBIT_INFL" 30 ++ " "
    ++ padLeftAlign "PROBIT_STATE" 30 ++ " " ++ padLeftAlign "PROBIT_EXT" 30 ++ " "
    ++ padLeftAlign "OBS_INC_INFO" 20

/-- Line 108 of the source: the dashed separator. -/
def dashLine : String :=
  dash30 ++ " " ++ dash30 ++ " " ++ dash30 ++ " " ++ dash30 ++ " " ++ dash20

/-- Lines 95-165 of the source: `display_summary_table`, as the list of print
payloads plus a success flag. -/
def display_summary_table (data : List (List String)) : List String × Bool :=
  let r := summaryRows data
  (["\n" ++ bar144, "SUMMARY TABLE", bar144, headerLine, dashLine] ++ r.1, r.2)

/-- One `print` of `display_quantity_info`: either a fixed payload or a
payload ending in a row field at a fixed index. -/
inductive PrintItem where
  | fixed (s : String)
  | field (lab : String) (i : Nat)

/-- Run a sequence of prints against a row.  A `field` whose index is out of
range models the uncaught `IndexError`: nothing further is printed and the
failure flag is set. -/
def emitPlan (row : List String) : List PrintItem → List String × Bool
  | [] => ([], true)
  | PrintItem.fixed s :: rest =>
    let r := emitPlan row rest
    (s :: r.1, r.2)
  | PrintItem.field lab i :: rest =>
    match row.get? i with
    | none => ([], false)
    | some v =>
      let r := emitPlan row rest
      ((lab ++ v) :: r.1, r.2)

/-- The print sequence of `display_quantity_info` (lines 43-92 of the
source). -/
def qtyInfoPlan (qty_name : String) : List PrintItem :=
  [PrintItem.fixed ("\n" ++ bar80),
   PrintItem.fixed ("QUANTITY: " ++ qty_name),
   PrintItem.fixed bar80,
   PrintItem.fixed "\nOBS ERROR INFO:",
   PrintItem.field "  Bounded Below: " 1,
   PrintItem.field "  Bounded Above: " 2,
   PrintItem.field "  Lower Bound:   " 3,
   PrintItem.field "  Upper Bound:   " 4,
   PrintItem.fixed "\nPROBIT INFLATION:",
   PrintItem.field "  Dist Type:     " 5,
   PrintItem.field "  Bounded Below: " 6,
   PrintItem.field "  Bounded Above: " 7,
   PrintItem.field "  Lower Bound:   " 8,
   PrintItem.field "  Upper Bound:   " 9,
   PrintItem.fixed "\nPROBIT STATE:",
   PrintItem.field "  Dist Type:     " 10,
   PrintItem.field "  Bounded Below: " 11,
   PrintItem.field "  Bounded Above: " 12,
   PrintItem.field "  Lower Bound:   " 13,
   PrintItem.field "  Upper Bound:   " 14,
   PrintItem.fixed "\nPROBIT EXTENDED STATE:",
   PrintItem.field "  Dist Type:     " 15,
   PrintItem.field "  Bounded Below: " 16,
   PrintItem.field "  Bounded Above: " 17,
   PrintItem.field "  Lower Bound:   " 18,
   PrintItem.field "  Upper Bound:   " 19,
   PrintItem.fixed "\nOBS INC INFO:",
   PrintItem.field "  Filter Kind:   " 20,
   PrintItem.field "  Bounded Below: " 21,
   PrintItem.field "  Bounded Above: " 22,
   PrintItem.field "  Lower Bound:   " 23,
   PrintItem.field "  Upper Bound:   " 24]

/-- Lines 43-92 of the source: `display_quantity_info`, as print payloads plus
a success flag. -/
def display_quantity_info (qty_name : String) (row : List String) :
    List String × Bool :=
  emitPlan row (qtyInfoPlan qty_name)

/-- The detail loop of `main` (lines 195-197): `qty_name = row[0]` then
`display_quantity_info(qty_name, row)`, for each row, stopping at the first
uncaught `IndexError`. -/
def detail_blocks : List (List String) → List String × Bool
  | [] => ([], true)
  | row :: rest =>
    match row.get? 0 with
    | none => ([], false)
    | some name =>
      let b := display_quantity_info name row
      if b.2 then
        let r := detail_blocks rest
        (b.1 ++ r.1, r.2)
      else (b.1, false)

/-- Lines 189-201 of the source: the detail section emitted when `--details`
is given. -/
def detail_section (data : List (List String)) : List String × Bool :=
  let b := detail_blocks data
  if b.2 then
    (["\n" ++ bar80, "DETAILED INFORMATION", bar80] ++ b.1
      ++ ["\n" ++ bar80, "END OF REPORT", bar80], true)
  else
    (["\n" ++ bar80, "DETAILED INFORMATION", bar80] ++ b.1, false)

/-- Lines 13-40 of the source: `read_qceff_table` on the parsed CSV rows.
`rows[0][0]` and `rows[1]` raise `IndexError` (modelled as `none`) when the
file has no rows, an empty first row, or fewer than two rows. -/
def read_qceff_table :
    List (List String) → Option (String × List String × List (List String))
  | (v :: _) :: hdr :: rest => some (v, hdr, rest)
  | _ => none

/-- The payload of the generic `except Exception` handler on line 207.  The
Python message also appends the exception's own text, which the model leaves
out; no claim depends on it. -/
def errorProcessingLine : String := "Error processing file:"

/-- Lines 168-208 of the source: `main`.  The file argument is `none` when
`open` raises `FileNotFoundError`, otherwise the parsed CSV rows.  The result
is the list of print payloads and the process exit code (0 on success, 1 from
either `except` handler). -/
def main_run (file : Option (List (List String))) (filename : String)
    (details : Bool) : List String × Nat :=
  match file with
  | none => (["Error: File '" ++ filename ++ "' not found."], 1)
  | some rows =>
    match read_qceff_table rows with
    | none => ([errorProcessingLine], 1)
    | some (version, _hdrs, data) =>
      let pre := ["QCEFF Table Display", "File: " ++ filename,
                  "Version: " ++ version]
      let s := display_summary_table data
      if s.2 then
        if details then
          let d := detail_section data
          if d.2 then (pre ++ s.1 ++ d.1, 0)
          else (pre ++ s.1 ++ d.1 ++ [errorProcessingLine], 1)
        else (pre ++ s.1, 0)
      else (pre ++ s.1 ++ [errorProcessingLine], 1)

/-- Number of print payloads equal to `t`. -/
def countLine (t : String) : List String → Nat
  | [] => 0
  | s :: rest => (if s = t then 1 else 0) + countLine t rest

/-- Checks that a plan item's row index (if it has one) is below a bound. -/
def fieldIdxOk (bound : Nat) : PrintItem → Bool
  | PrintItem.fixed _ => true
  | PrintItem.field _ i => decide (i < bound)

/-- Checks that a plan item's field label (if it has one) starts with a
space. -/
def fieldLabSpace : PrintItem → Bool
  | PrintItem.fixed _ => true
  | PrintItem.field lab _ => lab.data.head? == some ' '

/-! ### Helper lemmas -/

theorem string_data_append (a b : String) : (a ++ b).data = a.data ++ b.data := by
  cases a; cases b; rfl

theorem string_eq_of_data (a b : String) (h : a.data = b.data) : a = b := by
  cases a; cases b; exact congrArg String.mk h

theorem ne_of_pyLen_ne (a b : String) (h : pyLen a ≠ pyLen b) : a ≠ b :=
  fun e => h (congrArg pyLen e)

theorem append_head (p x : String) (c : Char) (hp : p.data.head? = some c) :
    (p ++ x).data.head? = some c := by
  rw [string_data_append]
  cases hd : p.data with
  | nil => rw [hd] at hp; cases hp
  | cons a as =>
    rw [hd] at hp
    simpa using hp

theorem append_ne_of_head (p x t : String) (c : Char)
    (hp : p.data.head? = some c) (ht : t.data.head? ≠ some c) : p ++ x ≠ t := by
  intro e
  exact ht (e ▸ append_head p x c hp)

theorem pyLen_append (a b : String) : pyLen (a ++ b) = pyLen a + pyLen b := by
  simp [pyLen, string_data_append]

theorem pyLen_pad (s : String) (w : Nat) : w ≤ pyLen (padLeftAlign s w) := by
  have h : pyLen (padLeftAlign s w) = pyLen s + (w - pyLen s) := by
    rw [padLeftAlign, pyLen_append]
    simp [pyLen]
  omega

theorem noOccur_cons (pat : List Char) (c : Char) (cs : List Char)
    (h : noOccur pat (c :: cs)) : noOccur pat cs := by
  intro i hi
  have h2 := h (i + 1) (by simp; omega)
  simpa [List.drop_succ_cons] using h2

theorem noOccur_of_short (pat s : List Char) (h : s.length < pat.length) :
    noOccur pat s := by
  intro i hi heq
  have hlen := congrArg List.length heq
  rw [List.length_take, List.length_drop] at hlen
  omega

theorem replaceAllFuel_id (pat rep : List Char) :
    ∀ (s : List Char) (n : Nat), s.length ≤ n → noOccur pat s →
      replaceAllFuel pat rep n s = s := by
  intro s
  induction s with
  | nil => intro n _ _; cases n <;> rfl
  | cons c cs ih =>
    intro n hn hno
    cases n with
    | zero => simp at hn
    | succ m =>
      have h0 : ¬ (pat ≠ [] ∧ (c :: cs).take pat.length = pat) := by
        rintro ⟨-, h⟩
        exact hno 0 (by simp) (by simpa using h)
      have hn2 : cs.length ≤ m := by simp at hn; omega
      simp only [replaceAllFuel, if_neg h0]
      exact congrArg (c :: ·) (ih m hn2 (noOccur_cons pat c cs hno))

theorem replaceAllFuel_strip (pat rep t : List Char) (hp : pat ≠ [])
    (hno : noOccur pat t) :
    ∀ n, pat.length + t.length ≤ n →
      replaceAllFuel pat rep n (pat ++ t) = rep ++ t := by
  intro n hn
  cases pat with
  | nil => exact absurd rfl hp
  | cons p ps =>
    cases n with
    | zero => simp at hn
    | succ m =>
      have htake : ((p :: ps) ++ t).take (p :: ps).length = p :: ps :=
        List.take_left _ _
      have hdrop : ((p :: ps) ++ t).drop (p :: ps).length = t :=
        List.drop_left _ _
      have hm : t.length ≤ m := by simp at hn; omega
      rw [List.cons_append]
      simp only [replaceAllFuel]
      rw [if_pos ⟨by simp, by rw [← List.cons_append]; exact htake⟩]
      rw [← List.cons_append, hdrop]
      rw [replaceAllFuel_id (p :: ps) rep t m hm hno]

theorem pyReplace_id (s pat rep : String) (hno : noOccur pat.data s.data) :
    pyReplace s pat rep = s := by
  apply string_eq_of_data
  exact replaceAllFuel_id _ _ _ _ le_rfl hno

theorem bnrhSubst_of_short (dist : String) (h : pyLen dist < 30) :
    bnrhSubst dist = dist := by
  apply pyReplace_id
  apply noOccur_of_short
  have h30 : ("BOUNDED_NORMAL_RH_DISTRIBUTION" : String).data.length = 30 := rfl
  rw [h30]
  exact h

theorem emitPlan_ok_iff (row : List String) (plan : List PrintItem) :
    (emitPlan row plan).2 = true ↔
      ∀ lab i, PrintItem.field lab i ∈ plan → i < row.length := by
  induction plan with
  | nil => simp [emitPlan]
  | cons item rest ih =>
    cases item with
    | fixed s =>
      simpa [emitPlan] using ih
    | field lab i =>
      cases hq : row.get? i with
      | none =>
        have hlen : row.length ≤ i := List.get?_eq_none.mp hq
        simp only [emitPlan, hq]
        constructor
        · intro h; cases h
        · intro h
          exact absurd (h lab i (List.mem_cons_self _ _)) (by omega)
      | some v =>
        have hlt : i < row.length := by
          by_contra hc
          rw [List.get?_eq_none.mpr (by omega)] at hq
          cases hq
        simp only [emitPlan, hq]
        rw [ih]
        constructor
        · intro h lab2 i2 hmem
          rcases List.mem_cons.mp hmem with h1 | h1
          · injection h1 with h2 h3
            omega
          · exact h lab2 i2 h1
        · intro h lab2 i2 hmem
          exact h lab2 i2 (List.mem_cons_of_mem _ hmem)

theorem emitPlan_mem (row : List String) (plan : List PrintItem) (l : String)
    (hl : l ∈ (emitPlan row plan).1) :
    ∃ item, item ∈ plan ∧
      ((∃ s, item = PrintItem.fixed s ∧ l = s) ∨
       (∃ lab i v, item = PrintItem.field lab i ∧ l = lab ++ v)) := by
  induction plan with
  | nil => cases hl
  | cons item rest ih =>
    cases item with
    | fixed s =>
      simp only [emitPlan] at hl
      rcases List.mem_cons.mp hl with rfl | hl2
      · exact ⟨PrintItem.fixed l, List.mem_cons_self _ _, Or.inl ⟨l, rfl, rfl⟩⟩
      · obtain ⟨item, hitem, hc⟩ := ih hl2
        exact ⟨item, List.mem_cons_of_mem _ hitem, hc⟩
    | field lab i =>
      cases hq : row.get? i with
      | none => rw [emitPlan, hq] at hl; cases hl
      | some v =>
        rw [emitPlan, hq] at hl
        rcases List.mem_cons.mp hl with rfl | hl2
        · exact ⟨PrintItem.field lab i, List.mem_cons_self _ _,
            Or.inr ⟨lab, i, v, rfl, rfl⟩⟩
        · obtain ⟨item, hitem, hc⟩ := ih hl2
          exact ⟨item, List.mem_cons_of_mem _ hitem, hc⟩

theorem qtyInfoPlan_field_lt (n lab : String) (i : Nat)
    (h : PrintItem.field lab i ∈ qtyInfoPlan n) : i < 25 := by
  have hall : (qtyInfoPlan n).all (fieldIdxOk 25) = true := rfl
  have h2 := List.all_eq_true.mp hall _ h
  simpa [fieldIdxOk] using h2

theorem display_quantity_info_ok (n : String) (row : List String)
    (h : 25 ≤ row.length) : (display_quantity_info n row).2 = true := by
  rw [display_quantity_info, emitPlan_ok_iff]
  intro lab i hmem
  have := qtyInfoPlan_field_lt n lab i hmem
  omega

theorem summaryRows_snd (data : List (List String))
    (h : ∀ row ∈ data, row ≠ []) : (summaryRows data).2 = true := by
  induction data with
  | nil => rfl
  | cons row rest ih =>
    have hrow := h row (List.mem_cons_self _ _)
    obtain ⟨name, rest2, rfl⟩ : ∃ a t, row = a :: t := by
      cases row with
      | nil => exact absurd rfl hrow
      | cons a t => exact ⟨a, t, rfl⟩
    simp only [summaryRows, summary_line]
    exact ih (fun r hr => h r (List.mem_cons_of_mem _ hr))

theorem summaryRows_mem (data : List (List String)) (l : String)
    (hl : l ∈ (summaryRows data).1) :
    ∃ row, row ∈ data ∧ summary_line row = some l := by
  induction data with
  | nil => cases hl
  | cons row rest ih =>
    cases hsl : summary_line row with
    | none => rw [summaryRows, hsl] at hl; cases hl
    | some line =>
      rw [summaryRows, hsl] at hl
      rcases List.mem_cons.mp hl with rfl | hl2
      · exact ⟨row, List.mem_cons_self _ _, hsl⟩
      · obtain ⟨r, hr, hline⟩ := ih hl2
        exact ⟨r, List.mem_cons_of_mem _ hr, hline⟩

theorem five_cols_len (a b c d e : String) :
    144 ≤ pyLen (padLeftAlign a 30 ++ " " ++ padLeftAlign b 30 ++ " "
      ++ padLeftAlign c 30 ++ " " ++ padLeftAlign d 30 ++ " "
      ++ padLeftAlign e 20) := by
  simp only [pyLen_append]
  have p1 := pyLen_pad a 30
  have p2 := pyLen_pad b 30
  have p3 := pyLen_pad c 30
  have p4 := pyLen_pad d 30
  have p5 := pyLen_pad e 20
  have hs : pyLen " " = 1 := rfl
  omega

theorem summary_line_len (row : List String) (l : String)
    (h : summary_line row = some l) : 144 ≤ pyLen l := by
  cases row with
  | nil => cases h
  | cons name rest =>
    simp only [summary_line, Option.some.injEq] at h
    rw [← h]
    exact five_cols_len _ _ _ _ _

theorem countLine_append (t : String) (l₁ l₂ : List String) :
    countLine t (l₁ ++ l₂) = countLine t l₁ + countLine t l₂ := by
  induction l₁ with
  | nil => simp [countLine]
  | cons s rest ih => simp [countLine, ih, Nat.add_assoc]

theorem countLine_zero (t : String) (l : List String)
    (h : ∀ s ∈ l, s ≠ t) : countLine t l = 0 := by
  induction l with
  | nil => rfl
  | cons s rest ih =>
    simp only [countLine]
    rw [if_neg (h s (List.mem_cons_self _ _))]
    simpa using ih (fun s2 hs => h s2 (List.mem_cons_of_mem _ hs))

theorem detail_blocks_long (data : List (List String))
    (h : ∀ row ∈ data, 25 ≤ row.length) :
    detail_blocks data
      = (data.flatMap (fun row => (display_quantity_info (row.headD "") row).1),
         true) := by
  induction data with
  | nil => rfl
  | cons row rest ih =>
    have hlen := h row (List.mem_cons_self _ _)
    obtain ⟨a, t, rfl⟩ : ∃ a t, row = a :: t := by
      cases row with
      | nil => simp at hlen
      | cons a t => exact ⟨a, t, rfl⟩
    have hok : (display_quantity_info a (a :: t)).2 = true :=
      display_quantity_info_ok _ _ hlen
    have ih2 := ih (fun r hr => h r (List.mem_cons_of_mem _ hr))
    simp only [detail_blocks, List.get?, hok, if_pos, ih2, List.flatMap_cons]
    simp [List.headD]

/-! ### Claims -/

/-- Claim C1: in `format_dist`, a lower bound that after trimming is empty,
case-insensitively `none`, or the literal `-888888` renders as `-inf`, and an
upper bound that after trimming is empty, case-insensitively `none`, or the
same literal `-888888` renders as `inf`; any other bound renders verbatim
(trimmed); and for a non-normal distribution these rendered bounds are exactly
what `format_dist` places between the brackets. -/
theorem bound_sentinel_rendering (dist bb ba lower upper : String)
    (hn : pyUpper (pyStrip (bnrhSubst dist)) ≠ "NORMAL_DISTRIBUTION") :
    format_dist dist bb ba lower upper
      = truncLabel (bnrhSubst dist) ++ " " ++ left_bracket bb
        ++ render_lower lower ++ "," ++ render_upper upper ++ right_bracket ba
    ∧ ((pyStrip lower = "" ∨ pyLower (pyStrip lower) = "none"
          ∨ pyStrip lower = "-888888") → render_lower lower = "-inf")
    ∧ (¬ (pyStrip lower = "" ∨ pyLower (pyStrip lower) = "none"
          ∨ pyStrip lower = "-888888") → render_lower lower = pyStrip lower)
    ∧ ((pyStrip upper = "" ∨ pyLower (pyStrip upper) = "none"
          ∨ pyStrip upper = "-888888") → render_upper upper = "inf")
    ∧ (¬ (pyStrip upper = "" ∨ pyLower (pyStrip upper) = "none"
          ∨ pyStrip upper = "-888888") → render_upper upper = pyStrip upper) := by
  refine ⟨?_, ?_, ?_, ?_, ?_⟩
  · simp only [format_dist]
    rw [if_neg hn]
  · intro h; simp only [render_lower]; rw [if_pos h]
  · intro h; simp only [render_lower]; rw [if_neg h]
  · intro h; simp only [render_upper]; rw [if_pos h]
  · intro h; simp only [render_upper]; rw [if_neg h]

/-- Witness for C1 at concrete inputs; the sentinel `-888888` on the lower
bound and `None` on the upper bound both collapse to infinities. -/
theorem bound_sentinel_rendering_witness :
    render_lower " -888888 " = "-inf" ∧ render_upper " None " = "inf"
      ∧ format_dist "GAMMA_DISTRIBUTION" "x" "x" " -888888 " " None "
          = "GAMMA_DISTRIBUTION (-inf,inf)" := by
  have h := bound_sentinel_rendering "GAMMA_DISTRIBUTION" "x" "x" " -888888 "
    " None " (by decide)
  exact ⟨h.2.1 (by decide), h.2.2.2.1 (by decide), h.1.trans (by decide)⟩

/-- Claim C2 (counterexample): the source removes every occurrence of `QTY_`
with `str.replace`, so a non-prefix occurrence is deleted too, contradicting
the claim that it is left in place: for the raw name `AQTY_B` the claim
predicts `AQTY_B`, the code renders `AB`. -/
theorem qty_strip_counterexample :
    summary_qty_name "AQTY_B" = "AB" ∧ summary_qty_name "AQTY_B" ≠ "AQTY_B" := by
  exact ⟨by decide, by decide⟩

/-- Claim C2 (amended): the rendered quantity name equals the raw name with
every left-to-right non-overlapping occurrence of `QTY_` deleted; in
particular a name with no occurrence renders unchanged, and a name consisting
of the prefix `QTY_` followed by an occurrence-free tail renders as that
tail. -/
theorem qty_strip_all_occurrences (name t : String) :
    (noOccur ("QTY_" : String).data name.data → summary_qty_name name = name)
    ∧ (name.data = ("QTY_" : String).data ++ t.data →
        noOccur ("QTY_" : String).data t.data → summary_qty_name name = t) := by
  constructor
  · intro h
    exact pyReplace_id name "QTY_" "" h
  · intro heq hno
    apply string_eq_of_data
    show replaceAllFuel ("QTY_" : String).data ("" : String).data
      name.data.length name.data = t.data
    rw [heq, List.length_append]
    rw [replaceAllFuel_strip ("QTY_" : String).data ("" : String).data t.data
      (by decide) hno _ le_rfl]
    rfl

/-- Witness for C2 (amended): an occurrence-free name is unchanged and a
clean `QTY_`-prefixed name loses exactly the prefix. -/
theorem qty_strip_all_occurrences_witness :
    summary_qty_name "ATEMP" = "ATEMP" ∧ summary_qty_name "QTY_TEMP" = "TEMP" :=
  ⟨(qty_strip_all_occurrences "ATEMP" "x").1 (by decide),
   (qty_strip_all_occurrences "QTY_TEMP" "TEMP").2 (by decide) (by decide)⟩

/-- Claim C3: the concrete example from the spec. -/
theorem bnrh_example_format :
    format_dist "BOUNDED_NORMAL_RH_DISTRIBUTION" ".true." "FALSE" "-888888" "5.0"
      = "BNRH_DISTRIBUTION [-inf,5.0)" := by decide

/-- Claim C5 (counterexample): a zero-field data row (a blank CSV line) has
fewer than 21 fields, yet the summary loop raises on `row[0]` instead of
producing a line, so the table rendering fails. -/
theorem short_row_counterexample :
    summary_line ([] : List String) = none
      ∧ (display_summary_table [([] : List String)]).2 = false
      ∧ ([] : List String).length < 21 :=
  ⟨rfl, rfl, by decide⟩

/-- Claim C5 (amended): every data row with at least one field and fewer than
21 fields still produces a full summary line, with the obs_inc_info column
rendered as `N/A`; only the zero-field row fails. -/
theorem short_row_summary_na (row : List String) (h1 : row ≠ [])
    (h2 : row.length < 21) :
    (∃ l, summary_line row = some l) ∧ obs_inc_rendered row = "N/A" := by
  constructor
  · cases row with
    | nil => exact absurd rfl h1
    | cons a t => exact ⟨_, rfl⟩
  · rw [obs_inc_rendered, List.getD_eq_default _ _ (by omega)]
    decide

/-- Witness for C5 (amended) at a two-field row. -/
theorem short_row_summary_na_witness :
    (∃ l, summary_line ["QTY_X", "t"] = some l)
      ∧ obs_inc_rendered ["QTY_X", "t"] = "N/A" :=
  short_row_summary_na ["QTY_X", "t"] (by decide) (by decide)

/-- Claim C6: a label longer than 20 characters renders as its first 18
characters followed by `..`, so the rendered form has length exactly 20; a
label of length at most 20 renders unchanged.  `truncLabel` is the truncation
applied by `format_dist` to distribution labels and by the summary loop to
the obs_inc_info kind label. -/
theorem label_truncation_invariant (s : String) :
    (20 < pyLen s → truncLabel s = pySlice s 18 ++ ".."
        ∧ pyLen (truncLabel s) = 20)
    ∧ (pyLen s ≤ 20 → truncLabel s = s) := by
  constructor
  · intro h
    have he : truncLabel s = pySlice s 18 ++ ".." := by
      rw [truncLabel, if_pos h]
    refine ⟨he, ?_⟩
    rw [he, pyLen_append]
    have h18 : pyLen (pySlice s 18) = 18 := by
      simp only [pySlice, pyLen, List.length_take]
      simp only [pyLen] at h
      omega
    rw [h18]
    rfl
  · intro h
    rw [truncLabel, if_neg (by omega)]

/-- Witness for C6 at a 21-character and a 20-character label. -/
theorem label_truncation_invariant_witness :
    truncLabel "ABCDEFGHIJKLMNOPQRSTU" = "ABCDEFGHIJKLMNOPQR.."
      ∧ pyLen (truncLabel "ABCDEFGHIJKLMNOPQRSTU") = 20
      ∧ truncLabel "ABCDEFGHIJKLMNOPQRST" = "ABCDEFGHIJKLMNOPQRST" := by
  obtain ⟨he, hl⟩ := (label_truncation_invariant "ABCDEFGHIJKLMNOPQRSTU").1
    (by decide)
  exact ⟨he.trans (by decide), hl,
    (label_truncation_invariant "ABCDEFGHIJKLMNOPQRST").2 (by decide)⟩

/-- Claim C4 (counterexample): short rows are not always tolerated.  With one
data row of a single field, detail mode reaches `row[1]` in
`display_quantity_info`, raises, and the run aborts with exit code 1 instead
of degrading to placeholders. -/
theorem ragged_rows_counterexample :
    (main_run (some [["v"], ["hdr"], ["QTY_A"]]) "t.csv" true).2 = 1
      ∧ (display_quantity_info "QTY_A" ["QTY_A"]).2 = false :=
  ⟨by decide, by decide⟩

/-- Claim C4 (amended): in the summary table every nonempty row renders (the
fields at indices 5 and beyond degrade to `N/A` or the empty string), but a
detail block succeeds exactly when the row has at least 25 fields; any
shorter row raises an uncaught index error there, aborting the run. -/
theorem ragged_rows_behavior (qty_name : String) (row : List String) :
    (row ≠ [] → ∃ l, summary_line row = some l)
    ∧ ((display_quantity_info qty_name row).2 = true ↔ 25 ≤ row.length) := by
  constructor
  · intro h
    cases row with
    | nil => exact absurd rfl h
    | cons a t => exact ⟨_, rfl⟩
  · rw [display_quantity_info, emitPlan_ok_iff]
    constructor
    · intro h
      have h24 := h "  Upper Bound:   " 24 (by simp [qtyInfoPlan])
      omega
    · intro h lab i hmem
      have := qtyInfoPlan_field_lt qty_name lab i hmem
      omega

/-- Witness for C4 (amended) at a one-field row. -/
theorem ragged_rows_behavior_witness :
    (∃ l, summary_line ["QTY_A"] = some l)
      ∧ ((display_quantity_info "QTY_A" ["QTY_A"]).2 = true
          ↔ 25 ≤ (["QTY_A"] : List String).length) := by
  have h := ragged_rows_behavior "QTY_A" ["QTY_A"]
  exact ⟨h.1 (by decide), h.2⟩

/-- Claim C7: when the trimmed upper-cased label (after the BNRH substitution)
is `NORMAL_DISTRIBUTION`, `format_dist` returns only the possibly truncated
label with no brackets; `format_dist "NORMAL_DISTRIBUTION" _ _ _ _` is exactly
`"NORMAL_DISTRIBUTION"`; and on already-short normal-distribution inputs
`format_dist` is idempotent. -/
theorem normal_distribution_formatting (dist bb ba lower upper b2 a2 l2 u2 :
    String) :
    (pyUpper (pyStrip (bnrhSubst dist)) = "NORMAL_DISTRIBUTION" →
      format_dist dist bb ba lower upper = truncLabel (bnrhSubst dist))
    ∧ format_dist "NORMAL_DISTRIBUTION" bb ba lower upper = "NORMAL_DISTRIBUTION"
    ∧ (pyLen dist ≤ 20 →
        pyUpper (pyStrip (bnrhSubst dist)) = "NORMAL_DISTRIBUTION" →
        format_dist (format_dist dist bb ba lower upper) b2 a2 l2 u2
          = format_dist dist bb ba lower upper) := by
  refine ⟨?_, ?_, ?_⟩
  · intro h
    simp only [format_dist]
    rw [if_pos h]
  · have hb : bnrhSubst "NORMAL_DISTRIBUTION" = "NORMAL_DISTRIBUTION" :=
      bnrhSubst_of_short _ (by decide)
    simp only [format_dist]
    rw [hb, if_pos (by decide), truncLabel, if_neg (by decide)]
  · intro hlen hnorm
    have hb : bnrhSubst dist = dist := bnrhSubst_of_short dist (by omega)
    rw [hb] at hnorm
    have h1 : format_dist dist bb ba lower upper = dist := by
      simp only [format_dist]
      rw [hb, if_pos hnorm, truncLabel, if_neg (by omega)]
    rw [h1]
    simp only [format_dist]
    rw [hb, if_pos hnorm, truncLabel, if_neg (by omega)]

/-- Witness for C7: the label is returned bare and re-applying `format_dist`
is the identity on its output. -/
theorem normal_distribution_formatting_witness :
    format_dist "NORMAL_DISTRIBUTION" ".true." "TRUE" "0" "1"
        = "NORMAL_DISTRIBUTION"
      ∧ format_dist " normal_distribution" "x" "y" "1" "2"
        = " normal_distribution"
      ∧ format_dist (format_dist " normal_distribution" "x" "y" "1" "2")
          "p" "q" "r" "s"
        = format_dist " normal_distribution" "x" "y" "1" "2" := by
  have h := normal_distribution_formatting " normal_distribution" "x" "y" "1"
    "2" "p" "q" "r" "s"
  exact ⟨(normal_distribution_formatting "d" ".true." "TRUE" "0" "1" "p" "q"
      "r" "s").2.1,
    (h.1 (by decide)).trans (by decide),
    h.2.2 (by decide) (by decide)⟩

/-- Claim C8: for a non-normal distribution the opening bracket is `[` exactly
when the trimmed bounded-below flag upper-cases to `TRUE` or is the literal
`.true.` (else `(`), and the closing bracket is `]` exactly when the trimmed
bounded-above flag passes the same test (else `)`). -/
theorem bracket_selection (dist bb ba lower upper : String) :
    (left_bracket bb = "["
      ↔ (pyUpper (pyStrip bb) = "TRUE" ∨ pyStrip bb = ".true."))
    ∧ (right_bracket ba = "]"
      ↔ (pyUpper (pyStrip ba) = "TRUE" ∨ pyStrip ba = ".true."))
    ∧ (left_bracket bb = "[" ∨ left_bracket bb = "(")
    ∧ (right_bracket ba = "]" ∨ right_bracket ba = ")")
    ∧ (pyUpper (pyStrip (bnrhSubst dist)) ≠ "NORMAL_DISTRIBUTION" →
        format_dist dist bb ba lower upper
          = truncLabel (bnrhSubst dist) ++ " " ++ left_bracket bb
            ++ render_lower lower ++ "," ++ render_upper upper
            ++ right_bracket ba) := by
  refine ⟨⟨?_, ?_⟩, ⟨?_, ?_⟩, ?_, ?_, ?_⟩
  · intro h
    by_contra hc
    rw [left_bracket, if_neg hc] at h
    exact absurd h (by decide)
  · intro h
    rw [left_bracket, if_pos h]
  · intro h
    by_contra hc
    rw [right_bracket, if_neg hc] at h
    exact absurd h (by decide)
  · intro h
    rw [right_bracket, if_pos h]
  · rw [left_bracket]
    by_cases hc : pyUpper (pyStrip bb) = "TRUE" ∨ pyStrip bb = ".true."
    · rw [if_pos hc]; exact Or.inl rfl
    · rw [if_neg hc]; exact Or.inr rfl
  · rw [right_bracket]
    by_cases hc : pyUpper (pyStrip ba) = "TRUE" ∨ pyStrip ba = ".true."
    · rw [if_pos hc]; exact Or.inl rfl
    · rw [if_neg hc]; exact Or.inr rfl
  · intro hn
    simp only [format_dist]
    rw [if_neg hn]

/-- Witness for C8: `.true.`-style and `FALSE`-style flags pick the expected
brackets on a concrete bounded distribution. -/
theorem bracket_selection_witness :
    left_bracket " .true. " = "[" ∧ right_bracket "false" ≠ "]"
      ∧ format_dist "BETA_DISTRIBUTION" " .true. " "false" "0" "1"
          = "BETA_DISTRIBUTION [0,1)" := by
  have h := bracket_selection "BETA_DISTRIBUTION" " .true. " "false" "0" "1"
  refine ⟨h.1.mpr (by decide), ?_, (h.2.2.2.2 (by decide)).trans (by decide)⟩
  intro hb
  exact absurd (h.2.1.mp hb) (by decide)

/-- Claim C10: when the input file is missing, the run exits with code 1 and
prints exactly one message, which names the file; no table output precedes
the failure. -/
theorem missing_file_exit (filename : String) (details : Bool) :
    (main_run none filename details).2 = 1
    ∧ (main_run none filename details).1
        = ["Error: File '" ++ filename ++ "' not found."]
    ∧ ∃ pre post, (main_run none filename details).1
        = [pre ++ filename ++ post] :=
  ⟨rfl, rfl, "Error: File '", "' not found.", by
    show ["Error: File '" ++ filename ++ "' not found."]
      = ["Error: File '" ++ filename ++ "' not found."]
    rfl⟩

theorem detail_payload_ne (row : List String) (l : String)
    (hl : l ∈ (display_quantity_info (row.headD "") row).1) :
    l ≠ "DETAILED INFORMATION" := by
  rcases emitPlan_mem _ _ _ hl with ⟨item, hitem, hcase⟩
  rcases hcase with ⟨s2, rfl, rfl⟩ | ⟨lab, i, v, rfl, rfl⟩
  · simp [qtyInfoPlan] at hitem
    rcases hitem with rfl | rfl | rfl | rfl | rfl | rfl | rfl | rfl
    · exact append_ne_of_head _ _ _ '\n' rfl (by decide)
    · exact append_ne_of_head _ _ _ 'Q' rfl (by decide)
    · decide
    · decide
    · decide
    · decide
    · decide
    · decide
  · have hall : (qtyInfoPlan (row.headD "")).all fieldLabSpace = true := rfl
    have h2 := List.all_eq_true.mp hall _ hitem
    have hhead : lab.data.head? = some ' ' := by
      simpa [fieldLabSpace] using h2
    exact append_ne_of_head _ _ _ ' ' hhead (by decide)

/-- Claim C9: with the detail flag off the output has no
`DETAILED INFORMATION` payload; with it on there is exactly one, followed by
one detail block per data row in input order and the end-of-report banner.
Stated for a table whose data rows all carry the full 25 fields (shorter rows
abort detail mode, see claim C4). -/
theorem detail_mode_sections (filename v0 : String) (v0rest hdr : List String)
    (data : List (List String)) (h : ∀ row ∈ data, 25 ≤ row.length) :
    countLine "DETAILED INFORMATION"
        (main_run (some ((v0 :: v0rest) :: hdr :: data)) filename false).1 = 0
    ∧ countLine "DETAILED INFORMATION"
        (main_run (some ((v0 :: v0rest) :: hdr :: data)) filename true).1 = 1
    ∧ (main_run (some ((v0 :: v0rest) :: hdr :: data)) filename true).1
      = (main_run (some ((v0 :: v0rest) :: hdr :: data)) filename false).1
        ++ ["\n" ++ bar80, "DETAILED INFORMATION", bar80]
        ++ data.flatMap (fun row => (display_quantity_info (row.headD "") row).1)
        ++ ["\n" ++ bar80, "END OF REPORT", bar80] := by
  have hne : ∀ row ∈ data, row ≠ [] := by
    intro row hr hnil
    have h25 := h row hr
    rw [hnil] at h25
    simp at h25
  have hsum : (summaryRows data).2 = true := summaryRows_snd data hne
  have hblocks := detail_blocks_long data h
  have hfalse : (main_run (some ((v0 :: v0rest) :: hdr :: data)) filename
      false).1
      = ["QCEFF Table Display", "File: " ++ filename, "Version: " ++ v0]
        ++ (["\n" ++ bar144, "SUMMARY TABLE", bar144, headerLine, dashLine]
            ++ (summaryRows data).1) := by
    simp [main_run, read_qceff_table, display_summary_table, hsum]
  have htrue : (main_run (some ((v0 :: v0rest) :: hdr :: data)) filename
      true).1
      = ["QCEFF Table Display", "File: " ++ filename, "Version: " ++ v0]
        ++ (["\n" ++ bar144, "SUMMARY TABLE", bar144, headerLine, dashLine]
            ++ (summaryRows data).1)
        ++ (["\n" ++ bar80, "DETAILED INFORMATION", bar80]
            ++ data.flatMap
                (fun row => (display_quantity_info (row.headD "") row).1)
            ++ ["\n" ++ bar80, "END OF REPORT", bar80]) := by
    simp [main_run, read_qceff_table, display_summary_table, hsum,
      detail_section, hblocks]
  have hpre0 : countLine "DETAILED INFORMATION"
      ["QCEFF Table Display", "File: " ++ filename, "Version: " ++ v0] = 0 := by
    apply countLine_zero
    intro s hs
    simp at hs
    rcases hs with rfl | rfl | rfl
    · decide
    · exact append_ne_of_head _ _ _ 'F' rfl (by decide)
    · exact append_ne_of_head _ _ _ 'V' rfl (by decide)
  have hhead0 : countLine "DETAILED INFORMATION"
      ["\n" ++ bar144, "SUMMARY TABLE", bar144, headerLine, dashLine] = 0 := by
    decide
  have hrows0 : countLine "DETAILED INFORMATION" (summaryRows data).1 = 0 := by
    apply countLine_zero
    intro s hs
    obtain ⟨row, _, hline⟩ := summaryRows_mem data s hs
    apply ne_of_pyLen_ne
    have hlong := summary_line_len row s hline
    have ht : pyLen "DETAILED INFORMATION" = 20 := rfl
    omega
  have hblocks0 : countLine "DETAILED INFORMATION"
      (data.flatMap (fun row => (display_quantity_info (row.headD "") row).1))
      = 0 := by
    apply countLine_zero
    intro s hs
    rcases List.mem_flatMap.mp hs with ⟨row, _, hmem⟩
    exact detail_payload_ne row s hmem
  have hcount0 : countLine "DETAILED INFORMATION"
      (main_run (some ((v0 :: v0rest) :: hdr :: data)) filename false).1 = 0 := by
    rw [hfalse, countLine_append, countLine_append, hpre0, hhead0, hrows0]
  refine ⟨hcount0, ?_, ?_⟩
  · rw [htrue, countLine_append, countLine_append, countLine_append,
      countLine_append, countLine_append, hpre0, hhead0, hrows0, hblocks0]
    decide
  · rw [htrue, hfalse]
    simp [List.append_assoc]

/-- Witness for C9 at a concrete table with no data rows. -/
theorem detail_mode_sections_witness :
    countLine "DETAILED INFORMATION"
        (main_run (some [["v"], ["hdr"]]) "t.csv" false).1 = 0
    ∧ countLine "DETAILED INFORMATION"
        (main_run (some [["v"], ["hdr"]]) "t.csv" true).1 = 1
    ∧ (main_run (some [["v"], ["hdr"]]) "t.csv" true).1
      = (main_run (some [["v"], ["hdr"]]) "t.csv" false).1
        ++ ["\n" ++ bar80, "DETAILED INFORMATION", bar80]
        ++ ([] : List (List String)).flatMap
            (fun row => (display_quantity_info (row.headD "") row).1)
        ++ ["\n" ++ bar80, "END OF REPORT", bar80] :=
  detail_mode_sections "t.csv" "v" [] ["hdr"] [] (by simp)

